import Mathlib

/-!
Verification of the elasticsearch-dump migration pipeline.

A shallow embedding of the Go sources (`main.go` and the historical variant)
into Lean 4. Go's `map[string]interface{}` values decoded from JSON are
modelled by the inductive `JVal`; Go map reads on a missing key yield the
zero value `nil` (modelled `JVal.jnull`); a non-comma-ok type assertion on a
value of the wrong dynamic type is a run-time panic, modelled by the
`Except GoPanic` monad. Network interactions are modelled by passing the
HTTP outcome (transport failure or a response with status code, raw body and
decoded body) as an explicit argument.
-/

/-- A decoded JSON value, the model of Go's `interface{}` holding data
produced by `encoding/json`. Objects are association lists (first binding
wins on lookup, as a Go map holds each key once). -/
inductive JVal where
  | jnull : JVal
  | jstr : String → JVal
  | jnum : Int → JVal
  | jbool : Bool → JVal
  | jarr : List JVal → JVal
  | jobj : List (String × JVal) → JVal
deriving Repr, Inhabited

/-- A Go `map[string]interface{}` after JSON decoding. -/
abbrev GoMap := List (String × JVal)

/-- Go run-time panics that the embedded code can raise. -/
inductive GoPanic where
  /-- Assertion `v.(T)` failed: the dynamic type is not `T` (the payload names `T`). -/
  | interfaceConversion : String → GoPanic
  /-- Byte indexing `s[0]` on an empty string. -/
  | indexOutOfRange : GoPanic
  /-- method call through a nil pointer (e.g. `resp.Body` when `resp == nil`). -/
  | nilDeref : GoPanic
deriving Repr, DecidableEq

/-- Go map read `m[k]`: the zero value `nil` when the key is absent. -/
def objGet (fs : GoMap) (k : String) : JVal :=
  match fs with
  | [] => .jnull
  | (k', v) :: rest => if k' = k then v else objGet rest k

/-- Go comma-ok map read `v, ok := m[k]`. -/
def objGetOk (fs : GoMap) (k : String) : Option JVal :=
  match fs with
  | [] => none
  | (k', v) :: rest => if k' = k then some v else objGetOk rest k

/-- Go comma-ok presence test `_, ok := m[k]`. -/
def objHasKey (fs : GoMap) (k : String) : Bool :=
  (objGetOk fs k).isSome

/-- Go map write `m[k] = v` (replaces an existing binding, else appends). -/
def objSet (fs : GoMap) (k : String) (v : JVal) : GoMap :=
  match fs with
  | [] => [(k, v)]
  | (k', v') :: rest => if k' = k then (k, v) :: rest else (k', v') :: objSet rest k v

/-- Non-comma-ok assertion `v.(string)`: panics unless the value is a string. -/
def asString : JVal → Except GoPanic String
  | .jstr s => .ok s
  | _ => .error (.interfaceConversion "string")

/-- Non-comma-ok assertion `v.(map[string]interface\x7b\x7d)`. -/
def asObj : JVal → Except GoPanic GoMap
  | .jobj fs => .ok fs
  | _ => .error (.interfaceConversion "map[string]interface")

/-- Comma-ok assertion `m, ok := v.(map[string]interface\x7b\x7d)`. -/
def asObjOk : JVal → Option GoMap
  | .jobj fs => some fs
  | _ => none

/-- Comma-ok assertion `a, ok := v.([]interface\x7b\x7d)`. -/
def asArrOk : JVal → Option (List JVal)
  | .jarr xs => some xs
  | _ => none

/-- Follow a key path through nested objects (for stating properties of the
normalized index definitions); `jnull` off the path. -/
def jpath (v : JVal) : List String → JVal
  | [] => v
  | k :: ks =>
    match v with
    | .jobj fs => jpath (objGet fs k) ks
    | _ => .jnull

theorem objGet_objSet_same (fs : GoMap) (k : String) (v : JVal) :
    objGet (objSet fs k v) k = v := by
  induction fs with
  | nil => simp [objSet, objGet]
  | cons p rest ih =>
    by_cases h : p.1 = k
    · simp [objSet, objGet, h]
    · simp [objSet, objGet, h, ih]

/-! ## Serialization: the model of `encoding/json` used for bulk records

The worker encodes two values per document with a `json.Encoder`: the action
line `map[string]Document{"create": doc}` (the `Document` struct marshals
its exported, tagged fields `_index`, `_type`, `_id` in declaration order;
the unexported `source` field is skipped) and then the raw `source` map.
Each `Encode` call appends the JSON text plus one newline. Key order of
encoded maps does not matter for any property below (only lengths and
whether bytes were appended do), so the encoder renders object fields in
list order. -/

/-- JSON string escaping for the quote and backslash characters. -/
def jsonEscapeChar (c : Char) : String :=
  if c = '"' then "\\\"" else if c = '\\' then "\\\\" else String.singleton c

/-- A JSON string literal. -/
def jsonQuote (s : String) : String :=
  "\"" ++ String.join (s.data.map jsonEscapeChar) ++ "\""

mutual

/-- Render a decoded JSON value back to JSON text. -/
def encodeJVal : JVal → String
  | .jnull => "null"
  | .jstr s => jsonQuote s
  | .jnum n => toString n
  | .jbool b => if b then "true" else "false"
  | .jarr xs => "[" ++ encodeJElems xs ++ "]"
  | .jobj fs => "\x7b" ++ encodeJFields fs ++ "\x7d"

/-- Comma-separated array elements. -/
def encodeJElems : List JVal → String
  | [] => ""
  | [v] => encodeJVal v
  | v :: rest => encodeJVal v ++ "," ++ encodeJElems rest

/-- Comma-separated object fields. -/
def encodeJFields : List (String × JVal) → String
  | [] => ""
  | [(k, v)] => jsonQuote k ++ ":" ++ encodeJVal v
  | (k, v) :: rest => jsonQuote k ++ ":" ++ encodeJVal v ++ "," ++ encodeJFields rest

end

/-- The bulk action line `docEnc.Encode(map[string]Document{"create": doc})`:
`{"create":{"_index":…,"_type":…,"_id":…}}` plus the encoder's newline. -/
def encodeAction (index typ id : String) : String :=
  "\x7b\"create\":\x7b\"_index\":" ++ jsonQuote index ++ ",\"_type\":" ++ jsonQuote typ
    ++ ",\"_id\":" ++ jsonQuote id ++ "\x7d\x7d\n"

/-- The source line `docEnc.Encode(doc.source)` plus the encoder's newline. -/
def encodeSource (src : GoMap) : String :=
  encodeJVal (.jobj src) ++ "\n"

/-! ## Error events

Everything the pipeline sends on `c.ErrChan`, one constructor per
`fmt.Errorf`/`errors.New` site (the payload keeps the data the message
interpolates). -/

/-- An event delivered to the Error Sink (`c.ErrChan`). -/
inductive ErrEvent where
  /-- worker sanity check: `failed decoding document: %+v`. -/
  | decodeFailed : String → String → String → ErrEvent
  /-- From `Scroll.Next` on a non-200 status: `scroll response: %s` with the raw body. -/
  | scrollResponse : String → ErrEvent
  /-- historical `Scroll.Stream` non-200 non-404: `bad scroll response: %s`. -/
  | badScrollResponse : String → ErrEvent
  /-- a `json.Decoder.Decode` failure forwarded to the sink. -/
  | jsonDecodeErr : ErrEvent
  /-- Message `failed casting doc interfaces`. -/
  | castDocInterfaces : ErrEvent
  /-- Message `failed casting doc`. -/
  | castDoc : ErrEvent
  /-- From `BulkPost` on a non-200 status: `bad bulk response: %s` with the raw body. -/
  | badBulkResponse : String → ErrEvent
  /-- a transport-level error forwarded to the sink. -/
  | transportFailed : ErrEvent
deriving Repr, DecidableEq

/-! ## The HTTP exchange model

An HTTP call either fails at the transport level (no response object) or
produces a response. A response carries the status code, the raw body (what
`ioutil.ReadAll` would return) and the result of `json.Decode` into
`map[string]interface{}` (`none` models a decode error). -/

/-- An HTTP response as the embedded code consumes it. -/
structure HttpResponse where
  statusCode : Nat
  rawBody : String
  decoded : Option GoMap
deriving Repr

/-- Outcome of an HTTP call: `none` is a transport error (`err != nil`,
`resp == nil`). -/
abbrev HttpResult := Option HttpResponse

/-! ## The Scroll Reader

`Scroll.Next` (main.go, lines 448–502): POST the continuation request; on a
transport error the error is sent to the sink and then `defer
resp.Body.Close()` dereferences the nil response (a panic). On a non-200
status the body is read, `scroll response: %s` is sent, and `Next` returns
`done = true`. Otherwise the body is decoded into a map; a decode failure,
a non-object `hits` field, or a non-array `hits.hits` field each send one
event and return `done = false`; otherwise every element of the array is
asserted to be a map (a panic if not) and pushed onto `c.DocChan`, and
`Next` returns the zero value `done = false` — there is no zero-document
check. -/

/-- What one call to `Scroll.Next` produces: the `done` flag, the documents
pushed onto the Document Queue, and the events sent to the Error Sink. -/
structure NextOutcome where
  done : Bool
  queued : List GoMap
  errs : List ErrEvent
deriving Repr

/-- Assert every fetched hit is a map (`docI.(map[string]interface\x7b\x7d)`),
in order, as the push loop of `Scroll.Next` does. -/
def castDocs : List JVal → Except GoPanic (List GoMap)
  | [] => .ok []
  | d :: rest => do
    let m ← asObj d
    let ms ← castDocs rest
    .ok (m :: ms)

/-- One continuation step of the Scroll Reader, `Scroll.Next`, as a function
of the HTTP outcome of the continuation request. -/
def scrollNext (resp : HttpResult) : Except GoPanic NextOutcome :=
  match resp with
  | none => .error .nilDeref
  | some r =>
    if r.statusCode ≠ 200 then
      .ok ⟨true, [], [.scrollResponse r.rawBody]⟩
    else
      match r.decoded with
      | none => .ok ⟨false, [], [.jsonDecodeErr]⟩
      | some body =>
        match asObjOk (objGet body "hits") with
        | none => .ok ⟨false, [], [.castDocInterfaces]⟩
        | some docsInterface =>
          match asArrOk (objGet docsInterface "hits") with
          | none => .ok ⟨false, [], [.castDoc]⟩
          | some docs =>
            match castDocs docs with
            | .error p => .error p
            | .ok ms => .ok ⟨false, ms, []⟩

/-- The `Document` struct: exported `Index`, `Type`, `Id` fields and the
unexported `source` map. -/
structure GoDocument where
  index : String
  typ : String
  id : String
  source : GoMap
deriving Repr

/-- Build a `Document` from a raw hit map, in the literal's field order
(`Index`, `Type`, `source`, `Id`), each through a non-comma-ok assertion —
so a missing or wrong-typed field panics. Used by `NewWorker` (main.go) and
`DecodeStream` (historical variant). -/
def decodeDoc (m : GoMap) : Except GoPanic GoDocument := do
  let i ← asString (objGet m "_index")
  let t ← asString (objGet m "_type")
  let s ← asObj (objGet m "_source")
  let id ← asString (objGet m "_id")
  .ok ⟨i, t, id, s⟩

/-- What one call of the historical `Scroll.Stream` produces. -/
structure StreamOutcome where
  done : Bool
  queued : List GoDocument
  errs : List ErrEvent
deriving Repr

/-- The tail of the historical variant's `DecodeStream`: decode and push
each hit as a `Document`. -/
def decodeStreamDocs : List JVal → Except GoPanic (List GoDocument)
  | [] => .ok []
  | d :: rest => do
    let m ← asObj d
    let doc ← decodeDoc m
    let ds ← decodeStreamDocs rest
    .ok (doc :: ds)

/-- The historical variant's `DecodeStream` (part_000, lines 376–412). -/
def decodeStream (decoded : Option GoMap) : Except GoPanic StreamOutcome :=
  match decoded with
  | none => .ok ⟨false, [], [.jsonDecodeErr]⟩
  | some body =>
    match asObjOk (objGet body "hits") with
    | none => .ok ⟨false, [], [.castDocInterfaces]⟩
    | some docsInterface =>
      match asArrOk (objGet docsInterface "hits") with
      | none => .ok ⟨false, [], [.castDoc]⟩
      | some docs =>
        match decodeStreamDocs docs with
        | .error p => .error p
        | .ok ds => .ok ⟨false, ds, []⟩

/-- The historical variant's `Scroll.Stream` (part_000, lines 349–374): a
transport error is reported and the stream continues; a 404 status returns
`done = true` with no event; any other non-200 status is reported with
`bad scroll response: %s` and the stream continues; a 200 response is handed
to `DecodeStream`. -/
def scrollStream (resp : HttpResult) : Except GoPanic StreamOutcome :=
  match resp with
  | none => .ok ⟨false, [], [.transportFailed]⟩
  | some r =>
    if r.statusCode = 404 then
      .ok ⟨true, [], []⟩
    else if r.statusCode ≠ 200 then
      .ok ⟨false, [], [.badScrollResponse r.rawBody]⟩
    else
      decodeStream r.decoded

/-! ## BulkPost

`BulkPost` (main.go, lines 505–524): under the shared flush mutex, append a
newline to the buffer, POST it to `/_bulk`. On a transport error the error
is reported and the function returns with the buffer untouched beyond the
appended newline (the request never reached a server; the model treats the
body as unconsumed). Once a response exists, `defer data.Reset()` runs on
every path, so the buffer is reset whether the status is 200 or not; a
non-200 status additionally reports `bad bulk response: %s`. -/

/-- One `BulkPost` call: the buffer content afterwards and the events sent. -/
def bulkPost (data : String) (r : HttpResult) : String × List ErrEvent :=
  let data2 := data ++ "\n"
  match r with
  | none => (data2, [.transportFailed])
  | some resp =>
    if resp.statusCode ≠ 200 then ("", [.badBulkResponse resp.rawBody])
    else ("", [])

/-! ## The Batch Writer worker

`NewWorker` (main.go, lines 183–240). Each loop iteration receives
`docI, open := <-c.DocChan` and immediately builds a `Document` from `docI`
through non-comma-ok type assertions — before testing `open`. A receive
from the channel after it is closed and drained yields the nil map and
`open = false`; reading any key of the nil map yields `nil`, so the very
first assertion `docI["_index"].(string)` panics on the close signal. The
`WORKER_DONE` block (append any residual `docBuf`, one final `BulkPost`)
sits behind the `if !open` test and is therefore modelled faithfully but
unreachable.

The run of one worker is modelled over the finite list of maps it receives
before the close signal (a closed channel delivers its remaining buffered
items first, then the `(nil, false)` receive). `BulkPost` outcomes are an
oracle indexed by the number of flushes performed so far. -/

/-- The mutable state a worker owns: its two buffers, what it has sent to
the Error Sink, how many `BulkPost` calls it has made, and the shared
document counter. -/
structure WorkerState where
  mainBuf : String
  docBuf : String
  errs : List ErrEvent
  flushCount : Nat
  docCount : Nat
deriving Repr, DecidableEq

/-- A worker's starting state. -/
def initWorkerState : WorkerState :=
  ⟨"", "", [], 0, 0⟩

/-- One `BulkPost` call made by a worker: the oracle gives the HTTP outcome
of this (the `flushCount`-th) flush. -/
def bulkFlush (oracle : Nat → HttpResult) (st : WorkerState) : WorkerState :=
  let (buf, es) := bulkPost st.mainBuf (oracle st.flushCount)
  { st with mainBuf := buf, errs := st.errs ++ es, flushCount := st.flushCount + 1 }

/-- One loop iteration of `NewWorker` on a received map (the `open = true`
case): build the `Document` (assertions may panic), run the sanity check —
an empty `Index`, `Id` or `Type` sends one `failed decoding document` event
and skips the rest of the iteration — else encode the action line and the
source line into `docBuf`, flush first if `mainBuf.Len() + docBuf.Len()`
would pass the 100 MB ceiling, then append `docBuf` to `mainBuf`, reset
`docBuf` and count the document. -/
def workerStep (oracle : Nat → HttpResult) (st : WorkerState) (docI : GoMap) :
    Except GoPanic WorkerState := do
  let doc ← decodeDoc docI
  if doc.index.length = 0 ∨ doc.id.length = 0 ∨ doc.typ.length = 0 then
    .ok { st with errs := st.errs ++ [.decodeFailed doc.index doc.typ doc.id] }
  else
    let st := { st with
      docBuf := st.docBuf ++ encodeAction doc.index doc.typ doc.id ++ encodeSource doc.source }
    let st :=
      if st.mainBuf.length + st.docBuf.length > 100000000 then bulkFlush oracle st else st
    .ok { st with
      mainBuf := st.mainBuf ++ st.docBuf
      docBuf := ""
      docCount := st.docCount + 1 }

/-- The worker loop over the documents received before the close signal. -/
def workerSteps (oracle : Nat → HttpResult) (st : WorkerState) :
    List GoMap → Except GoPanic WorkerState
  | [] => .ok st
  | d :: ds => do
    let st' ← workerStep oracle st d
    workerSteps oracle st' ds

/-- The `WORKER_DONE` block: append any residual `docBuf` to `mainBuf`,
then one final `BulkPost`. -/
def workerDone (oracle : Nat → HttpResult) (st : WorkerState) : WorkerState :=
  let st := if st.docBuf.length > 0 then
    { st with mainBuf := st.mainBuf ++ st.docBuf } else st
  bulkFlush oracle st

/-- The nil map delivered by the receive from a closed, drained channel. -/
def closedChanRecv : GoMap := []

/-- A full worker run: process every buffered document, then the receive
that reports the channel closed — whose `Document` construction runs before
the `if !open` test, exactly as in the source — and only then the
`WORKER_DONE` drain-and-flush. -/
def runWorker (oracle : Nat → HttpResult) (docs : List GoMap) :
    Except GoPanic WorkerState := do
  let st ← workerSteps oracle initWorkerState docs
  let _ ← decodeDoc closedChanRecv
  .ok (workerDone oracle st)

/-! ## Index metadata: filtering, settings, replication

`GetIndexes` (main.go, lines 242–293) decodes the mapping listing and then
filters it in place: one pass deletes every name whose first byte is `'_'`
(always), and, when `CopyAllIndexes` is false, a second pass deletes names
whose first byte is `'.'` or `'_'`. Go's `name[0]` panics on an empty name.
The listing is modelled as the decoded association list; the remaining work
of `GetIndexes` (the `_all` name join and the legacy `mappings` wrap) does
not affect the filtering claim and is omitted here. -/

/-- Byte indexing `name[0]`: panics on the empty string. -/
def goByte0 (s : String) : Except GoPanic Char :=
  match s.data with
  | [] => .error .indexOutOfRange
  | c :: _ => .ok c

/-- The first filtering pass of `GetIndexes`: always delete names starting
with `'_'`. -/
def filterUnderscorePass : List (String × JVal) → Except GoPanic (List (String × JVal))
  | [] => .ok []
  | (n, v) :: rest => do
    let c ← goByte0 n
    let r ← filterUnderscorePass rest
    if c = '_' then .ok r else .ok ((n, v) :: r)

/-- The second filtering pass of `GetIndexes` (only when `CopyAllIndexes`
is false): delete names starting with `'.'` or `'_'`. -/
def filterDotUnderscorePass : List (String × JVal) → Except GoPanic (List (String × JVal))
  | [] => .ok []
  | (n, v) :: rest => do
    let c ← goByte0 n
    let r ← filterDotUnderscorePass rest
    if c = '.' ∨ c = '_' then .ok r else .ok ((n, v) :: r)

/-- The name-filtering portion of `GetIndexes`. -/
def filterIndexes (copyAllIndexes : Bool) (idxs : List (String × JVal)) :
    Except GoPanic (List (String × JVal)) := do
  let idxs ← filterUnderscorePass idxs
  if copyAllIndexes = false then filterDotUnderscorePass idxs else .ok idxs

/-- Failures of the settings-normalization stage. -/
inductive PrepFailure where
  /-- A Go run-time panic. -/
  | gopanic : GoPanic → PrepFailure
  /-- The `couldnt find index %s` error, naming the index. -/
  | missingIndex : String → PrepFailure
deriving Repr, DecidableEq

/-- Lift a panicking computation into the normalization failure monad. -/
def liftP {α : Type} : Except GoPanic α → Except PrepFailure α
  | .ok a => .ok a
  | .error p => .error (.gopanic p)

/-- `CopyShardingSettings` (main.go, lines 354–396) for one index: look the
index name up in the fetched `/_all/_settings` listing — absence is the
named `couldnt find index` error — then overwrite the index definition's
`settings` with an empty map, read the shard count from the nested
`settings.index.number_of_shards` object form when the `index` key is
present, else from the flattened `settings["index.number_of_shards"]` form
(each read a non-comma-ok assertion that panics when the value is not
there as a string), and store `settings.index.number_of_shards` in the
definition. -/
def copyShardingOne (allSettings : GoMap) (name : String) (idx : JVal) :
    Except PrepFailure JVal := do
  match objGetOk allSettings name with
  | none => .error (.missingIndex name)
  | some settings => do
    let m ← liftP (asObj idx)
    let sOuter ← liftP (asObj settings)
    let sfs ← liftP (asObj (objGet sOuter "settings"))
    let shards ←
      if objHasKey sfs "index" then do
        let ifs ← liftP (asObj (objGet sfs "index"))
        liftP (asString (objGet ifs "number_of_shards"))
      else
        liftP (asString (objGet sfs "index.number_of_shards"))
    .ok (.jobj (objSet (objSet m "settings" (.jobj [])) "settings"
      (.jobj [("index", .jobj [("number_of_shards", .jstr shards)])])))

/-- `CopyShardingSettings` over the whole index listing. -/
def copyShardingSettings (allSettings : GoMap) :
    List (String × JVal) → Except PrepFailure (List (String × JVal))
  | [] => .ok []
  | (n, v) :: rest => do
    let v' ← copyShardingOne allSettings n v
    let rest' ← copyShardingSettings allSettings rest
    .ok ((n, v') :: rest')

/-- The Go ensure idiom `if _, ok := m[k]; !ok { m[k] = map[string]interface{}{} }`:
keep the map when the key is present, else add an empty object under it. -/
def ensureKey (m : GoMap) (k : String) : GoMap :=
  if objHasKey m k then m else objSet m k (.jobj [])

/-- `Indexes.SetShardCount` (main.go, lines 398–410) for one index: ensure
a `settings` object and a `settings.index` object exist, then set
`settings.index.number_of_shards` to the given string. -/
def setShardCountOne (shards : String) (idx : JVal) : Except GoPanic JVal := do
  let m ← asObj idx
  let sfs ← asObj (objGet (ensureKey m "settings") "settings")
  let ifs ← asObj (objGet (ensureKey sfs "index") "index")
  .ok (.jobj (objSet (ensureKey m "settings") "settings"
    (.jobj (objSet (ensureKey sfs "index") "index"
      (.jobj (objSet ifs "number_of_shards" (.jstr shards)))))))

/-- `Indexes.DisableReplication` (main.go, lines 412–425) for one index:
ensure a `settings` object and a `settings.index` object exist, then set
`settings.index.number_of_replicas` to `"0"`. -/
def disableReplicationOne (idx : JVal) : Except GoPanic JVal := do
  let m ← asObj idx
  let sfs ← asObj (objGet (ensureKey m "settings") "settings")
  let ifs ← asObj (objGet (ensureKey sfs "index") "index")
  .ok (.jobj (objSet (ensureKey m "settings") "settings"
    (.jobj (objSet (ensureKey sfs "index") "index"
      (.jobj (objSet ifs "number_of_replicas" (.jstr "0")))))))

/-- `Indexes.DisableReplication` over the whole listing. -/
def disableReplication : List (String × JVal) → Except GoPanic (List (String × JVal))
  | [] => .ok []
  | (n, v) :: rest => do
    let v' ← disableReplicationOne v
    let rest' ← disableReplication rest
    .ok ((n, v') :: rest')

/-- `Indexes.SetShardCount` applied to every index, as the loop in `main`
does for an explicit `--shards` override. -/
def setShardCountAll (shards : String) : List (String × JVal) → Except GoPanic (List (String × JVal))
  | [] => .ok []
  | (n, v) :: rest => do
    let v' ← setShardCountOne shards v
    let rest' ← setShardCountAll shards rest
    .ok ((n, v') :: rest')

/-- The settings phase of `main` (main.go, lines 91–105): an explicit
shard-count override takes priority over copying source settings, and
replication is disabled afterwards whenever `EnableReplication` is false. -/
def prepareIndexes (shardsCount : Int) (copySettings enableReplication : Bool)
    (allSettings : GoMap) (idxs : List (String × JVal)) :
    Except PrepFailure (List (String × JVal)) := do
  let idxs ←
    if shardsCount > 0 then
      liftP (setShardCountAll (toString shardsCount) idxs)
    else if copySettings = true then
      copyShardingSettings allSettings idxs
    else
      .ok idxs
  if enableReplication = false then
    liftP (disableReplication idxs)
  else
    .ok idxs

/-! ## The Cluster Readiness Gate

`ClusterStatus` (main.go, lines 544–557) returns a health record with status
`"unreachable"` on a transport error, else whatever the health endpoint's
body decoded to. `ClusterReady` (lines 526–542) judges it. The wait loop in
`main` (lines 130–145) re-polls the source first and, only if it is ready,
the destination; a not-ready answer from either prints, sleeps and retries —
there is no abort path in the loop. -/

/-- The decoded `/_cluster/health` record. -/
structure ClusterHealthR where
  name : String
  status : String
deriving Repr, DecidableEq

/-- `ClusterStatus`: a transport error yields the `"unreachable"` record
for the host, otherwise the decoded health record. -/
def clusterStatus (host : String) (r : Option ClusterHealthR) : ClusterHealthR :=
  match r with
  | none => ⟨host, "unreachable"⟩
  | some h => h

/-- `ClusterReady`: `"red"` is never ready; `"yellow"` is ready exactly when
`WaitForGreen` is false; `"green"` is always ready; anything else (including
`"unreachable"`) is not ready. -/
def clusterReady (waitForGreen : Bool) (health : ClusterHealthR) : Bool :=
  if health.status = "red" then false
  else if waitForGreen = false ∧ health.status = "yellow" then true
  else if health.status = "green" then true
  else false

/-- The readiness wait loop of `main`, over the (source, destination) health
answers each iteration would observe: `some k` when iteration `k` found both
clusters ready, `none` when the given answers ran out with the loop still
polling. The loop has no abort outcome: a not-ready answer only moves to the
next iteration. -/
def pollLoop (waitForGreen : Bool) : List (ClusterHealthR × ClusterHealthR) → Option Nat
  | [] => none
  | (src, dst) :: rest =>
    if clusterReady waitForGreen src ∧ clusterReady waitForGreen dst then
      some 0
    else
      (pollLoop waitForGreen rest).map (· + 1)

/-! ## Helper lemmas -/

theorem except_ok_bind {ε α β : Type} (a : α) (f : α → Except ε β) :
    (Except.ok a >>= f : Except ε β) = f a := rfl

theorem except_error_bind {ε α β : Type} (e : ε) (f : α → Except ε β) :
    (Except.error e >>= f : Except ε β) = .error e := rfl

/-! ## C2: an empty well-formed continuation page does not end the stream -/

/-- C2 counterexample: a status-200, decodable continuation response whose
`hits.hits` array is empty makes `Scroll.Next` return `done = false` (with
nothing queued and no event) — the claim said such a response makes `Next`
report the stream as done. -/
theorem scrollNext_empty_page_cex :
    scrollNext (some ⟨200, "empty page", some [("hits", .jobj [("hits", .jarr [])])]⟩)
      = .ok ⟨false, [], []⟩ := rfl

/-- C2 (amended): for every well-formed (status-200, decodable) continuation
response whose hits array contains zero documents, `Scroll.Next` reports the
stream as NOT done (`done = false`), queues nothing and emits no event; the
driving loop therefore does not terminate on an empty page (only a non-200
response terminates it). -/
theorem scrollNext_empty_page_not_done (r : HttpResponse) (body hs : GoMap)
    (h200 : r.statusCode = 200) (hdec : r.decoded = some body)
    (hhits : objGet body "hits" = .jobj hs)
    (hempty : objGet hs "hits" = .jarr []) :
    scrollNext (some r) = .ok ⟨false, [], []⟩ := by
  simp [scrollNext, h200, hdec, hhits, hempty, asObjOk, asArrOk, castDocs]

/-- C2 witness: the amended theorem applied at a concrete empty page. -/
theorem scrollNext_empty_page_not_done_witness :
    scrollNext (some ⟨200, "page two", some [("hits", .jobj [("hits", .jarr [])])]⟩)
      = .ok ⟨false, [], []⟩ :=
  scrollNext_empty_page_not_done
    ⟨200, "page two", some [("hits", .jobj [("hits", .jarr [])])]⟩
    [("hits", .jobj [("hits", .jarr [])])] [("hits", .jarr [])] rfl rfl rfl rfl

/-! ## C3: a 404 continuation terminates but is reported to the Error Sink -/

/-- C3 counterexample: in `Scroll.Next` (main.go) a 404 continuation response
does yield a terminal state with zero documents queued, but it sends one
`scroll response: %s` event to the Error Sink — the claim said no ErrorEvent
is emitted. -/
theorem scrollNext_404_cex :
    scrollNext (some ⟨404, "No search context found", none⟩)
      = .ok ⟨true, [], [.scrollResponse "No search context found"]⟩ := rfl

/-- C3 (amended): a continuation request answered with a 404-style response
yields a terminal state (`done = true`) with zero documents queued, but
`Scroll.Next` emits exactly one ErrorEvent carrying the response body (the
non-200 path does not distinguish 404); only the historical `Scroll.Stream`
variant treats 404 silently, terminating with zero documents and no event. -/
theorem scroll_404_terminal (rawBody : String) (dec : Option GoMap) :
    scrollNext (some ⟨404, rawBody, dec⟩) = .ok ⟨true, [], [.scrollResponse rawBody]⟩ ∧
    scrollStream (some ⟨404, rawBody, dec⟩) = .ok ⟨true, [], []⟩ := by
  constructor
  · simp [scrollNext]
  · simp [scrollStream]

/-! ## C10: BulkPost resets on any response; a transport failure keeps the
bytes but appends a newline -/

/-- C10 counterexample: on a transport-level failure the buffer is NOT left
unchanged — `BulkPost` appended the terminating newline before the POST, so
the buffer now holds the old bytes plus one newline. -/
theorem bulkPost_transport_cex :
    bulkPost "recA\nsrcA\n" none = ("recA\nsrcA\n\n", [.transportFailed]) ∧
    "recA\nsrcA\n\n" ≠ "recA\nsrcA\n" := ⟨rfl, by decide⟩

/-- C10 (amended): `BulkPost` resets the batch buffer exactly when an HTTP
response is received — on a 200 silently, on a non-200 with one
`bad bulk response` event, so a failed batch is dropped; when the POST fails
at the transport level (no response) the batch's bytes are retained (with
the already-appended terminating newline) and are re-sent on the worker's
next flush. -/
theorem bulkPost_reset_iff_response (data : String) (resp : HttpResponse) :
    (bulkPost data (some resp)).1 = "" ∧
    bulkPost data none = (data ++ "\n", [.transportFailed]) ∧
    (resp.statusCode = 200 → bulkPost data (some resp) = ("", [])) ∧
    (resp.statusCode ≠ 200 →
      bulkPost data (some resp) = ("", [.badBulkResponse resp.rawBody])) := by
  refine ⟨?_, rfl, fun h => by simp [bulkPost, h], fun h => by simp [bulkPost, h]⟩
  by_cases h : resp.statusCode = 200 <;> simp [bulkPost, h]

/-! ## C8: the readiness policy and the retrying poll loop -/

/-- When some iteration's answers show both clusters ready, the poll loop
reaches it: every earlier not-ready answer (red, unreachable, …) only moves
the loop to the next iteration, never aborts it. -/
theorem pollLoop_reaches_ready (waitForGreen : Bool)
    (polls : List (ClusterHealthR × ClusterHealthR))
    (h : ∃ p ∈ polls, clusterReady waitForGreen p.1 = true ∧
      clusterReady waitForGreen p.2 = true) :
    (pollLoop waitForGreen polls).isSome = true := by
  induction polls with
  | nil => simp at h
  | cons q rest ih =>
    obtain ⟨p, hp, hr1, hr2⟩ := h
    by_cases hq : clusterReady waitForGreen q.1 = true ∧ clusterReady waitForGreen q.2 = true
    · simp [pollLoop, hq]
    · have hpr : p ∈ rest := by
        rcases List.mem_cons.mp hp with he | hr
        · exact absurd (he ▸ ⟨hr1, hr2⟩) hq
        · exact hr
      have := ih ⟨p, hpr, hr1, hr2⟩
      simp only [pollLoop]
      rw [if_neg (by exact_mod_cast hq)]
      simpa using this

/-- C8: the readiness check returns ready for status `green` always; for
`yellow` exactly when the green-required option is not set; never for `red`
or `unreachable` (a transport failure yields the `unreachable` status); and
a not-ready answer only causes a retry of the poll — whenever some later
iteration observes both clusters ready, the loop reaches it, so a not-ready
or unreachable status never aborts the run. -/
theorem clusterGate_policy (waitForGreen : Bool) (nm host : String)
    (polls : List (ClusterHealthR × ClusterHealthR))
    (h : ∃ p ∈ polls, clusterReady waitForGreen p.1 = true ∧
      clusterReady waitForGreen p.2 = true) :
    clusterReady waitForGreen ⟨nm, "green"⟩ = true ∧
    clusterReady waitForGreen ⟨nm, "yellow"⟩ = !waitForGreen ∧
    clusterReady waitForGreen ⟨nm, "red"⟩ = false ∧
    clusterReady waitForGreen ⟨nm, "unreachable"⟩ = false ∧
    clusterStatus host none = ⟨host, "unreachable"⟩ ∧
    (pollLoop waitForGreen polls).isSome = true := by
  refine ⟨?_, ?_, ?_, ?_, rfl, pollLoop_reaches_ready waitForGreen polls h⟩ <;>
    cases waitForGreen <;> simp [clusterReady]

/-- C8 witness: the theorem at a concrete run whose first poll sees an
unreachable source and whose second sees both clusters green. -/
theorem clusterGate_policy_witness :
    clusterReady false ⟨"c", "green"⟩ = true ∧
    clusterReady false ⟨"c", "yellow"⟩ = !false ∧
    clusterReady false ⟨"c", "red"⟩ = false ∧
    clusterReady false ⟨"c", "unreachable"⟩ = false ∧
    clusterStatus "http://src:9200" none = ⟨"http://src:9200", "unreachable"⟩ ∧
    (pollLoop false [(⟨"s", "unreachable"⟩, ⟨"d", "green"⟩),
      (⟨"s", "green"⟩, ⟨"d", "green"⟩)]).isSome = true :=
  clusterGate_policy false "c" "http://src:9200"
    [(⟨"s", "unreachable"⟩, ⟨"d", "green"⟩), (⟨"s", "green"⟩, ⟨"d", "green"⟩)]
    ⟨(⟨"s", "green"⟩, ⟨"d", "green"⟩), by decide, by decide, by decide⟩

/-! ## C7: replicas forced to "0" when replication is not enabled -/

/-- Unwrapping a successful lift from the panic monad. -/
theorem liftP_ok {α : Type} (x : Except GoPanic α) (a : α) (h : liftP x = .ok a) :
    x = .ok a := by
  cases x with
  | ok b => simpa [liftP] using h
  | error e => simp [liftP] at h

/-- A successful `Except` bind factors through a successful first stage. -/
theorem except_bind_ok {ε α β : Type} (x : Except ε α) (f : α → Except ε β) (b : β)
    (h : (x >>= f) = .ok b) : ∃ a, x = .ok a ∧ f a = .ok b := by
  cases x with
  | ok a => exact ⟨a, rfl, h⟩
  | error e => rw [except_error_bind] at h; exact absurd h (by simp)

/-- Each index that `DisableReplication` processed ends with
`settings.index.number_of_replicas = "0"`. -/
theorem disableReplicationOne_replicas (idx v : JVal)
    (h : disableReplicationOne idx = .ok v) :
    jpath v ["settings", "index", "number_of_replicas"] = .jstr "0" := by
  unfold disableReplicationOne at h
  cases hm : asObj idx with
  | error p => rw [hm, except_error_bind] at h; exact absurd h (by simp)
  | ok m =>
    rw [hm, except_ok_bind] at h
    cases hs : asObj (objGet (ensureKey m "settings") "settings") with
    | error p => rw [hs, except_error_bind] at h; exact absurd h (by simp)
    | ok sfs =>
      rw [hs, except_ok_bind] at h
      cases hi : asObj (objGet (ensureKey sfs "index") "index") with
      | error p => rw [hi, except_error_bind] at h; exact absurd h (by simp)
      | ok ifs =>
        rw [hi, except_ok_bind] at h
        have hv : v = .jobj (objSet (ensureKey m "settings") "settings"
            (.jobj (objSet (ensureKey sfs "index") "index"
              (.jobj (objSet ifs "number_of_replicas" (.jstr "0")))))) := by
          simpa using h.symm
        subst hv
        simp [jpath, objGet_objSet_same]

/-- Every entry of a successful `DisableReplication` run comes from an entry
of the input processed by `disableReplicationOne`. -/
theorem disableReplication_mem (idxs out : List (String × JVal))
    (h : disableReplication idxs = .ok out) (n : String) (v : JVal)
    (hmem : (n, v) ∈ out) :
    ∃ v₀, (n, v₀) ∈ idxs ∧ disableReplicationOne v₀ = .ok v := by
  induction idxs generalizing out with
  | nil =>
    simp [disableReplication] at h
    subst h; simp at hmem
  | cons p rest ih =>
    obtain ⟨m, w⟩ := p
    unfold disableReplication at h
    cases hw : disableReplicationOne w with
    | error e => rw [hw, except_error_bind] at h; exact absurd h (by simp)
    | ok w' =>
      rw [hw, except_ok_bind] at h
      cases hr : disableReplication rest with
      | error e => rw [hr, except_error_bind] at h; exact absurd h (by simp)
      | ok rest' =>
        rw [hr, except_ok_bind] at h
        have hout : out = (m, w') :: rest' := by simpa using h.symm
        subst hout
        rcases List.mem_cons.mp hmem with he | hr2
        · have h1 : n = m := (Prod.mk.injEq _ _ _ _ ▸ he).1
          have h2 : v = w' := (Prod.mk.injEq _ _ _ _ ▸ he).2
          subst h1; subst h2
          exact ⟨w, List.mem_cons_self _ _, hw⟩
        · obtain ⟨v₀, hv₀, hone⟩ := ih rest' hr hr2
          exact ⟨v₀, List.mem_cons_of_mem _ hv₀, hone⟩

/-- C7: whenever replication is not explicitly enabled
(`EnableReplication = false`), every index definition that leaves the
settings phase of `main` carries `settings.index.number_of_replicas = "0"`,
regardless of the source's replica count (whatever settings the earlier
stages produced, `DisableReplication` runs last and overwrites the value). -/
theorem replicas_forced_zero (shardsCount : Int) (copySettings : Bool)
    (allSettings : GoMap) (idxs out : List (String × JVal))
    (h : prepareIndexes shardsCount copySettings false allSettings idxs = .ok out)
    (n : String) (v : JVal) (hmem : (n, v) ∈ out) :
    jpath v ["settings", "index", "number_of_replicas"] = .jstr "0" := by
  unfold prepareIndexes at h
  simp only [eq_self_iff_true, if_pos rfl, if_true] at h
  split at h
  all_goals try split at h
  all_goals
    obtain ⟨idxs1, h1, h2⟩ := except_bind_ok _ _ _ h
  all_goals
    have hdr : disableReplication idxs1 = .ok out := liftP_ok _ _ h2
  all_goals
    obtain ⟨v₀, hm₀, hone⟩ := disableReplication_mem idxs1 out hdr n v hmem
  all_goals
    exact disableReplicationOne_replicas v₀ v hone

/-- C7 witness: a concrete run of the settings phase (no shard override, no
settings copy, replication not enabled) on one bare index. -/
theorem replicas_forced_zero_witness :
    jpath (.jobj [("settings", .jobj [("index", .jobj [("number_of_replicas", .jstr "0")])])])
      ["settings", "index", "number_of_replicas"] = .jstr "0" :=
  replicas_forced_zero 0 false [] [("accounts", .jobj [])]
    [("accounts", .jobj [("settings",
      .jobj [("index", .jobj [("number_of_replicas", .jstr "0")])])])]
    rfl "accounts"
    (.jobj [("settings", .jobj [("index", .jobj [("number_of_replicas", .jstr "0")])])])
    (List.mem_singleton.mpr rfl)

/-! ## C9: name filtering always drops underscore names, and dot names
unless include-all is set -/

/-- Test whether a name's first character is `c`. -/
def startsWithChar (c : Char) (s : String) : Bool :=
  s.data.head? == some c

/-- A successful `name[0]` read is the name's first character. -/
theorem goByte0_head (s : String) (c : Char) (h : goByte0 s = .ok c) :
    s.data.head? = some c := by
  unfold goByte0 at h
  cases hd : s.data with
  | nil => rw [hd] at h; exact absurd h (by simp)
  | cons a as =>
    rw [hd] at h
    have : a = c := by simpa using h
    simp [this]

/-- The first delete loop keeps exactly the entries not starting `'_'`. -/
theorem filterUnderscorePass_eq (idxs out : List (String × JVal))
    (h : filterUnderscorePass idxs = .ok out) :
    out = idxs.filter (fun p => ! startsWithChar '_' p.1) := by
  induction idxs generalizing out with
  | nil => simp [filterUnderscorePass] at h; simp [h]
  | cons p rest ih =>
    obtain ⟨m, w⟩ := p
    unfold filterUnderscorePass at h
    cases hc : goByte0 m with
    | error e => rw [hc, except_error_bind] at h; exact absurd h (by simp)
    | ok c =>
      rw [hc, except_ok_bind] at h
      cases hr : filterUnderscorePass rest with
      | error e => rw [hr, except_error_bind] at h; exact absurd h (by simp)
      | ok r =>
        rw [hr, except_ok_bind] at h
        have hm := goByte0_head m c hc
        by_cases hcu : c = '_'
        · rw [if_pos hcu] at h
          have hout : out = r := by simpa using h.symm
          have hpred : (! startsWithChar '_' m) = false := by
            simp [startsWithChar, hm, hcu]
          rw [hout, ih r hr, List.filter_cons, hpred]
          simp
        · rw [if_neg hcu] at h
          have hout : out = (m, w) :: r := by simpa using h.symm
          have hpred : (! startsWithChar '_' m) = true := by
            simp [startsWithChar, hm, hcu]
          rw [hout, ih r hr, List.filter_cons, hpred]
          simp

/-- The second delete loop keeps exactly the entries starting with neither
`'.'` nor `'_'`. -/
theorem filterDotUnderscorePass_eq (idxs out : List (String × JVal))
    (h : filterDotUnderscorePass idxs = .ok out) :
    out = idxs.filter
      (fun p => !(startsWithChar '.' p.1 || startsWithChar '_' p.1)) := by
  induction idxs generalizing out with
  | nil => simp [filterDotUnderscorePass] at h; simp [h]
  | cons p rest ih =>
    obtain ⟨m, w⟩ := p
    unfold filterDotUnderscorePass at h
    cases hc : goByte0 m with
    | error e => rw [hc, except_error_bind] at h; exact absurd h (by simp)
    | ok c =>
      rw [hc, except_ok_bind] at h
      cases hr : filterDotUnderscorePass rest with
      | error e => rw [hr, except_error_bind] at h; exact absurd h (by simp)
      | ok r =>
        rw [hr, except_ok_bind] at h
        have hm := goByte0_head m c hc
        by_cases hcu : c = '.' ∨ c = '_'
        · rw [if_pos hcu] at h
          have hout : out = r := by simpa using h.symm
          have hpred : (!(startsWithChar '.' m || startsWithChar '_' m)) = false := by
            rcases hcu with hd | hu
            · simp [startsWithChar, hm, hd]
            · simp [startsWithChar, hm, hu]
          rw [hout, ih r hr, List.filter_cons, hpred]
          simp
        · rw [if_neg hcu] at h
          have hout : out = (m, w) :: r := by simpa using h.symm
          push_neg at hcu
          have hpred : (!(startsWithChar '.' m || startsWithChar '_' m)) = true := by
            simp [startsWithChar, hm, hcu.1, hcu.2]
          rw [hout, ih r hr, List.filter_cons, hpred]
          simp

/-- C9: after the name filtering of `GetIndexes`, an index survives exactly
when it was fetched, its name does not begin with `'_'` (excluded regardless
of the include-all flag), and — unless the include-all flag is set — its
name does not begin with `'.'`. -/
theorem filterIndexes_mem (copyAllIndexes : Bool) (idxs out : List (String × JVal))
    (h : filterIndexes copyAllIndexes idxs = .ok out) (n : String) (v : JVal) :
    ((n, v) ∈ out ↔ ((n, v) ∈ idxs ∧ startsWithChar '_' n = false ∧
      (copyAllIndexes = true ∨ startsWithChar '.' n = false))) := by
  unfold filterIndexes at h
  obtain ⟨mid, h1, h2⟩ := except_bind_ok _ _ _ h
  have hmid := filterUnderscorePass_eq idxs mid h1
  cases copyAllIndexes with
  | true =>
    have hout : out = mid := by simpa using h2.symm
    subst hout; subst hmid
    simp [List.mem_filter]
  | false =>
    have hout := filterDotUnderscorePass_eq mid out (by simpa using h2)
    subst hout; subst hmid
    simp only [List.mem_filter, Bool.not_eq_true', Bool.or_eq_false_iff]
    constructor
    · rintro ⟨⟨hin, hu⟩, hd, hu2⟩
      exact ⟨hin, hu, Or.inr hd⟩
    · rintro ⟨hin, hu, hc⟩
      rcases hc with hc | hd
      · exact absurd hc (by simp)
      · exact ⟨⟨hin, hu⟩, hd, hu⟩

/-- C9 witness: with the include-all flag off, `"_kibana"` and
`".marvel-2024"` are excluded and `"logs"` survives. -/
theorem filterIndexes_mem_witness :
    ((".marvel-2024", JVal.jobj []) ∈ [("logs", JVal.jobj [])] ↔
      ((".marvel-2024", JVal.jobj []) ∈
          [("_kibana", JVal.jobj []), (".marvel-2024", JVal.jobj []), ("logs", JVal.jobj [])] ∧
        startsWithChar '_' ".marvel-2024" = false ∧
        (false = true ∨ startsWithChar '.' ".marvel-2024" = false))) :=
  filterIndexes_mem false
    [("_kibana", JVal.jobj []), (".marvel-2024", JVal.jobj []), ("logs", JVal.jobj [])]
    [("logs", JVal.jobj [])] rfl ".marvel-2024" (JVal.jobj [])

/-! ## C4: settings lacking both shapes panic instead of raising the named
error -/

/-- C4 counterexample: an index whose fetched settings contain a `settings`
object but neither the nested `index` form nor the flattened
`index.number_of_shards` form makes `CopyShardingSettings` fail with a
run-time interface-conversion panic (asserting `nil.(string)`) — which is
not the named-index `couldnt find index` error the claim requires. -/
theorem copySharding_missing_both_cex :
    copyShardingSettings [("idx1", .jobj [("settings", .jobj [])])] [("idx1", .jobj [])]
      = .error (.gopanic (.interfaceConversion "string")) ∧
    (Except.error (.gopanic (.interfaceConversion "string"))
        : Except PrepFailure (List (String × JVal)))
      ≠ .error (.missingIndex "idx1") := by
  refine ⟨rfl, ?_⟩
  intro hcontra
  simp at hcontra

/-- C4 (amended): a per-index settings document that contains neither the
nested `index` object form nor the flattened `index.number_of_shards` form
makes settings normalization fail with a run-time panic (a failed string
type assertion), not a named-index error; the named `couldnt find index`
error arises exactly when the index has no entry in the fetched settings
listing at all. -/
theorem copySharding_failure_modes (allSettings : GoMap) (name : String) (idx : JVal) :
    (objGetOk allSettings name = none →
      copyShardingOne allSettings name idx = .error (.missingIndex name)) ∧
    (∀ s m sOuter sfs, objGetOk allSettings name = some s →
      asObj idx = .ok m → asObj s = .ok sOuter →
      asObj (objGet sOuter "settings") = .ok sfs →
      objHasKey sfs "index" = false →
      (∀ str, objGet sfs "index.number_of_shards" ≠ JVal.jstr str) →
      copyShardingOne allSettings name idx
        = .error (.gopanic (.interfaceConversion "string"))) := by
  constructor
  · intro h
    simp [copyShardingOne, h]
  · intro s m sOuter sfs h1 h2 h3 h4 h5 h6
    have hstr : asString (objGet sfs "index.number_of_shards")
        = .error (.interfaceConversion "string") := by
      cases hv : objGet sfs "index.number_of_shards"
      case jstr s2 => exact absurd hv (h6 s2)
      all_goals rfl
    simp [copyShardingOne, h1, h2, h3, h4, h5, hstr, liftP,
      except_ok_bind, except_error_bind]

/-! ## C5: documents with empty required fields are rejected with one event;
documents with a missing field panic the worker -/

/-- C5 counterexample: a received document map with no `_index` key at all
panics the worker at the `docI["_index"].(string)` assertion — no ErrorEvent
is emitted and the claim's "exactly one ErrorEvent" behavior does not
happen for a missing field. -/
theorem worker_missing_field_cex :
    workerStep (fun _ => none) initWorkerState
      [("_type", .jstr "tweet"), ("_source", .jobj []), ("_id", .jstr "1")]
      = .error (.interfaceConversion "string") := rfl

/-- C5 (amended): for every document received by a worker whose `_index`,
`_type`, `_id` fields are present as strings and `_source` as an object,
if any of index, type or id is the empty string the document is rejected
before serialization: the worker emits exactly one ErrorEvent for it and
changes nothing else (`mainBuf`, `docBuf` and the flush count are
untouched, so the document is never appended nor forwarded to `BulkPost`);
a document with one of these fields missing (or of a wrong dynamic type)
instead panics the worker. -/
theorem worker_rejects_empty_fields (oracle : Nat → HttpResult) (st : WorkerState)
    (docI : GoMap) (i t id : String) (src : GoMap)
    (hi : objGet docI "_index" = .jstr i)
    (ht : objGet docI "_type" = .jstr t)
    (hs : objGet docI "_source" = .jobj src)
    (hid : objGet docI "_id" = .jstr id)
    (hempty : i = "" ∨ t = "" ∨ id = "") :
    workerStep oracle st docI
      = .ok { st with errs := st.errs ++ [.decodeFailed i t id] } := by
  have hdec : decodeDoc docI = .ok ⟨i, t, id, src⟩ := by
    simp [decodeDoc, hi, ht, hs, hid, asString, asObj, except_ok_bind]
  have hcond : (i.length = 0 ∨ id.length = 0 ∨ t.length = 0) := by
    rcases hempty with h | h | h <;> simp [h]
  simp [workerStep, hdec, except_ok_bind, hcond]

/-- C5 witness: a document with an empty `_index` yields exactly the one
`failed decoding document` event. -/
theorem worker_rejects_empty_fields_witness :
    workerStep (fun _ => none) initWorkerState
      [("_index", .jstr ""), ("_type", .jstr "tweet"), ("_source", .jobj []),
        ("_id", .jstr "17")]
      = .ok { initWorkerState with errs := [.decodeFailed "" "tweet" "17"] } :=
  worker_rejects_empty_fields (fun _ => none) initWorkerState
    [("_index", .jstr ""), ("_type", .jstr "tweet"), ("_source", .jobj []),
      ("_id", .jstr "17")]
    "" "tweet" "17" [] rfl rfl rfl rfl (Or.inl rfl)

/-! ## C1: the close signal panics the worker before the final flush -/

/-- C1: a worker run always ends in a run-time panic: after draining the
buffered documents, the receive that reports the closed channel yields the
nil map, and the worker builds the `Document` from it (asserting
`nil.(string)`) before testing `open` — so the close signal is never
received safely and the `WORKER_DONE` drain-and-final-flush block is
unreachable. In particular a worker whose channel closes with nothing
buffered panics with the interface-conversion failure instead of flushing. -/
theorem worker_close_receive_panics (oracle : Nat → HttpResult) (docs : List GoMap) :
    (∃ p, runWorker oracle docs = .error p) ∧
    runWorker oracle [] = .error (.interfaceConversion "string") := by
  constructor
  · unfold runWorker
    cases h : workerSteps oracle initWorkerState docs with
    | error p => exact ⟨p, rfl⟩
    | ok st => exact ⟨.interfaceConversion "string", rfl⟩
  · rfl

/-! ## C6: the 100 MB ceiling forces an intermediate flush

On the valid-document path the worker loop is the deterministic function
`workerStepValid` below, proven equal to `workerStep`; the overflow theorem
is stated over it. -/

/-- The raw hit map carrying a document's fields. -/
def docMapOf (d : GoDocument) : GoMap :=
  [("_index", .jstr d.index), ("_type", .jstr d.typ), ("_id", .jstr d.id),
    ("_source", .jobj d.source)]

/-- The bytes one document contributes to the batch: its action line plus
its source line. -/
def encodedSize (d : GoDocument) : Nat :=
  (encodeAction d.index d.typ d.id ++ encodeSource d.source).length

/-- The worker state after encoding a document into `docBuf`. -/
def withEncodedDoc (st : WorkerState) (d : GoDocument) : WorkerState :=
  { st with docBuf := st.docBuf ++ encodeAction d.index d.typ d.id ++ encodeSource d.source }

/-- The tail of a loop iteration: append `docBuf` to `mainBuf`, reset it,
count the document. -/
def appendDocBuf (st : WorkerState) : WorkerState :=
  { st with mainBuf := st.mainBuf ++ st.docBuf, docBuf := "", docCount := st.docCount + 1 }

/-- One loop iteration on a valid document: encode, flush first if the
ceiling would be passed, then append. -/
def workerStepValid (oracle : Nat → HttpResult) (st : WorkerState) (d : GoDocument) :
    WorkerState :=
  appendDocBuf
    (if (withEncodedDoc st d).mainBuf.length + (withEncodedDoc st d).docBuf.length > 100000000
      then bulkFlush oracle (withEncodedDoc st d) else withEncodedDoc st d)

/-- The worker loop over a list of valid documents. -/
def runValidDocs (oracle : Nat → HttpResult) (st : WorkerState) :
    List GoDocument → WorkerState
  | [] => st
  | d :: ds => runValidDocs oracle (workerStepValid oracle st d) ds

/-- Decoding the map of a document recovers the document. -/
theorem decodeDoc_docMapOf (d : GoDocument) : decodeDoc (docMapOf d) = .ok d := rfl

/-- On a document whose required fields are non-empty, `workerStep` is the
deterministic `workerStepValid`. -/
theorem workerStep_docMapOf (oracle : Nat → HttpResult) (st : WorkerState)
    (d : GoDocument) (h1 : d.index.length ≠ 0) (h2 : d.id.length ≠ 0)
    (h3 : d.typ.length ≠ 0) :
    workerStep oracle st (docMapOf d) = .ok (workerStepValid oracle st d) := by
  simp [workerStep, decodeDoc_docMapOf, except_ok_bind, h1, h2, h3,
    workerStepValid, withEncodedDoc, appendDocBuf]

/-- Each `BulkPost` call increments the worker's flush count. -/
theorem bulkFlush_flushCount (oracle : Nat → HttpResult) (st : WorkerState) :
    (bulkFlush oracle st).flushCount = st.flushCount + 1 := rfl

/-- A loop iteration never decreases the flush count. -/
theorem workerStepValid_flushCount_le (oracle : Nat → HttpResult)
    (st : WorkerState) (d : GoDocument) :
    st.flushCount ≤ (workerStepValid oracle st d).flushCount := by
  unfold workerStepValid
  split
  · simp [appendDocBuf, bulkFlush_flushCount, withEncodedDoc]
  · simp [appendDocBuf, withEncodedDoc]

/-- The loop never decreases the flush count. -/
theorem runValidDocs_flushCount_le (oracle : Nat → HttpResult)
    (ds : List GoDocument) :
    ∀ st : WorkerState, st.flushCount ≤ (runValidDocs oracle st ds).flushCount := by
  induction ds with
  | nil => intro st; exact le_refl _
  | cons d rest ih =>
    intro st
    exact le_trans (workerStepValid_flushCount_le oracle st d) (ih _)

/-- Every iteration leaves `docBuf` reset. -/
theorem workerStepValid_docBuf (oracle : Nat → HttpResult) (st : WorkerState)
    (d : GoDocument) : (workerStepValid oracle st d).docBuf = "" := by
  unfold workerStepValid
  split <;> simp [appendDocBuf]

/-- When the buffered documents' total encoded size pushes past the ceiling,
at least one flush happens inside the loop. -/
theorem runValidDocs_overflow_flushes (oracle : Nat → HttpResult)
    (ds : List GoDocument) :
    ∀ st : WorkerState, st.docBuf = "" → ds ≠ [] →
      st.mainBuf.length + (ds.map encodedSize).sum > 100000000 →
      st.flushCount + 1 ≤ (runValidDocs oracle st ds).flushCount := by
  induction ds with
  | nil => intro st _ hne _; exact absurd rfl hne
  | cons d rest ih =>
    intro st hdb hne hsz
    rw [runValidDocs]
    have hlen : (withEncodedDoc st d).mainBuf.length + (withEncodedDoc st d).docBuf.length
        = st.mainBuf.length + encodedSize d := by
      simp [withEncodedDoc, hdb, encodedSize, String.length_append]
    by_cases hc : (withEncodedDoc st d).mainBuf.length
        + (withEncodedDoc st d).docBuf.length > 100000000
    · have hstep : (workerStepValid oracle st d).flushCount = st.flushCount + 1 := by
        unfold workerStepValid
        rw [if_pos hc]
        simp [appendDocBuf, bulkFlush_flushCount, withEncodedDoc]
      calc st.flushCount + 1 = (workerStepValid oracle st d).flushCount := hstep.symm
        _ ≤ (runValidDocs oracle (workerStepValid oracle st d) rest).flushCount :=
            runValidDocs_flushCount_le oracle rest _
    · have hle : st.mainBuf.length + encodedSize d ≤ 100000000 := by
        rw [hlen] at hc; omega
      have hrest : rest ≠ [] := by
        intro he
        subst he
        rw [List.map_cons, List.map_nil, List.sum_cons, List.sum_nil] at hsz
        omega
      have hmain : (workerStepValid oracle st d).mainBuf.length
          = st.mainBuf.length + encodedSize d := by
        unfold workerStepValid
        rw [if_neg hc]
        simp [appendDocBuf, withEncodedDoc, hdb, encodedSize, String.length_append]
      have hfc : (workerStepValid oracle st d).flushCount = st.flushCount := by
        unfold workerStepValid
        rw [if_neg hc]
        simp [appendDocBuf, withEncodedDoc]
      have hsz' : (workerStepValid oracle st d).mainBuf.length
          + (rest.map encodedSize).sum > 100000000 := by
        rw [hmain]
        rw [List.map_cons, List.sum_cons] at hsz
        omega
      have := ih (workerStepValid oracle st d)
        (workerStepValid_docBuf oracle st d) hrest hsz'
      rw [hfc] at this
      exact this

/-- The worker loop on valid documents never panics and runs the
deterministic loop. -/
theorem workerSteps_valid (oracle : Nat → HttpResult) (ds : List GoDocument) :
    ∀ st : WorkerState,
      (∀ d ∈ ds, d.index.length ≠ 0 ∧ d.id.length ≠ 0 ∧ d.typ.length ≠ 0) →
      workerSteps oracle st (ds.map docMapOf) = .ok (runValidDocs oracle st ds) := by
  induction ds with
  | nil => intro st _; rfl
  | cons d rest ih =>
    intro st hv
    have hd := hv d (List.mem_cons_self _ _)
    rw [List.map_cons]
    unfold workerSteps
    rw [workerStep_docMapOf oracle st d hd.1 hd.2.1 hd.2.2, except_ok_bind]
    exact ih _ (fun x hx => hv x (List.mem_cons_of_mem _ hx))

/-- C6: whenever the combined size of the worker's accumulated buffer and
the next serialized document exceeds the 100 MB ceiling, the worker flushes
(`BulkPost`, applied to the buffer state before the append) immediately and
only then appends the document — and consequently feeding documents whose
cumulative serialized size exceeds the ceiling triggers at least one flush
during the loop itself, before the drain flush of the shutdown path. -/
theorem flush_before_append_and_overflow (oracle : Nat → HttpResult)
    (ds : List GoDocument) :
    (∀ (st : WorkerState) (d : GoDocument),
      d.index.length ≠ 0 → d.id.length ≠ 0 → d.typ.length ≠ 0 →
      st.mainBuf.length + st.docBuf.length + encodedSize d > 100000000 →
      workerStep oracle st (docMapOf d)
          = .ok (appendDocBuf (bulkFlush oracle (withEncodedDoc st d))) ∧
        (appendDocBuf (bulkFlush oracle (withEncodedDoc st d))).flushCount
          = st.flushCount + 1) ∧
    ((∀ d ∈ ds, d.index.length ≠ 0 ∧ d.id.length ≠ 0 ∧ d.typ.length ≠ 0) →
      (ds.map encodedSize).sum > 100000000 →
      ∃ st : WorkerState,
        workerSteps oracle initWorkerState (ds.map docMapOf) = .ok st ∧
        1 ≤ st.flushCount) := by
  constructor
  · intro st d h1 h2 h3 hover
    have hlen : (withEncodedDoc st d).mainBuf.length + (withEncodedDoc st d).docBuf.length
        = st.mainBuf.length + st.docBuf.length + encodedSize d := by
      simp [withEncodedDoc, encodedSize, String.length_append]
      omega
    have hc : (withEncodedDoc st d).mainBuf.length
        + (withEncodedDoc st d).docBuf.length > 100000000 := by omega
    constructor
    · rw [workerStep_docMapOf oracle st d h1 h2 h3]
      unfold workerStepValid
      rw [if_pos hc]
    · simp [appendDocBuf, bulkFlush_flushCount, withEncodedDoc]
  · intro hv hsz
    refine ⟨runValidDocs oracle initWorkerState ds, workerSteps_valid oracle ds _ hv, ?_⟩
    have hne : ds ≠ [] := by
      intro he; subst he; simp at hsz
    have := runValidDocs_overflow_flushes oracle ds initWorkerState rfl hne
      (by simpa [initWorkerState] using hsz)
    simpa [initWorkerState] using this

/-! A concrete input for the overflow property: one document whose source
holds a 100000001-character string, so its serialized size passes the
100 MB ceiling. -/

/-- Length of a left fold of string appends. -/
theorem foldl_append_length (l : List String) :
    ∀ init : String, (l.foldl (fun a b => a ++ b) init).length
      = init.length + (l.map String.length).sum := by
  induction l with
  | nil => intro init; simp
  | cons s rest ih =>
    intro init
    rw [List.foldl_cons, ih, List.map_cons, List.sum_cons, String.length_append]
    omega

/-- Joining n copies of a one-character string gives length n. -/
theorem join_replicate_length (n : Nat) :
    (String.join (List.replicate n "a")).length = n := by
  rw [String.join, foldl_append_length]
  have h1 : ("a" : String).length = 1 := rfl
  simp [h1]

/-- Quoting n repetitions of 'a' adds only the two quote characters. -/
theorem jsonQuote_replicate_length (n : Nat) :
    (jsonQuote (String.mk (List.replicate n 'a'))).length = n + 2 := by
  rw [jsonQuote]
  have hmap : (String.mk (List.replicate n 'a')).data.map jsonEscapeChar
      = List.replicate n "a" := by
    show (List.replicate n 'a').map jsonEscapeChar = List.replicate n "a"
    rw [List.map_replicate]
    rfl
  rw [hmap]
  rw [String.length_append, String.length_append, join_replicate_length]
  have h1 : ("\"" : String).length = 1 := rfl
  simp only [h1]
  omega

/-- One valid document whose source passes the flush ceiling by itself. -/
def bigSourceDoc : GoDocument :=
  ⟨"i", "t", "1", [("text", .jstr (String.mk (List.replicate 100000001 'a')))]⟩

/-- The big document's serialized size exceeds the ceiling. -/
theorem bigSourceDoc_size : encodedSize bigSourceDoc ≥ 100000001 := by
  unfold bigSourceDoc encodedSize
  dsimp only
  rw [String.length_append]
  have hsrc : (encodeSource [("text", .jstr (String.mk (List.replicate 100000001 'a')))]).length
      ≥ 100000001 := by
    rw [encodeSource, String.length_append]
    have : (encodeJVal (.jobj [("text", .jstr (String.mk (List.replicate 100000001 'a')))])).length
        ≥ 100000001 := by
      rw [encodeJVal, String.length_append, String.length_append]
      have hf : (encodeJFields [("text", .jstr (String.mk (List.replicate 100000001 'a')))]).length
          ≥ 100000001 := by
        rw [encodeJFields, String.length_append, String.length_append, encodeJVal,
          jsonQuote_replicate_length]
        omega
      omega
    omega
  omega

/-- C6 witness: the overflow conjunct of the claim theorem applied to the
concrete over-ceiling input — the worker loop flushes at least once while
processing it. -/
theorem flush_overflow_witness :
    ∃ st : WorkerState,
      workerSteps (fun _ => some ⟨200, "ok", some []⟩) initWorkerState
        ([bigSourceDoc].map docMapOf) = .ok st ∧ 1 ≤ st.flushCount :=
  (flush_before_append_and_overflow (fun _ => some ⟨200, "ok", some []⟩) [bigSourceDoc]).2
    (by
      intro d hd
      rw [List.mem_singleton] at hd
      subst hd
      exact ⟨by decide, by decide, by decide⟩)
    (by
      rw [List.map_cons, List.map_nil, List.sum_cons, List.sum_nil]
      have := bigSourceDoc_size
      omega)
